import Mathlib

/-!
Shallow embedding of the ableist-language detector's pattern-matching core
(`ability_skills_decoder/decoder.py` and `ability_skills_decoder/extract_terms.py`).

A spaCy `Token` is embedded as a record of the attributes the matching code
reads: `text`, `lemma_`, `pos_`, `dep_`, the sentence index of its syntactic
head (`token.head.i`), and the sentence index of its rightmost syntactic
descendant (`token.right_edge.i`).  A spaCy `Doc` is the list of its tokens in
sentence order, so a token's index is its position in the list.  Python `set`
membership on the lexicon becomes list membership on `List String`.

Slicing `doc[a : b]` in spaCy normalizes the bounds (spacy.util.normalize_slice:
clamp the start into [0, len], then clamp the stop into [start, len]); since our
indices are natural numbers the negative-index branch never fires, and the
normalization is embedded verbatim in `normalizeSlice`.
-/

namespace Ableist

structure Token where
  text : String
  lemma_ : String
  pos_ : String
  dep_ : String
  head : Nat
  right_edge : Nat
deriving Repr, DecidableEq, Inhabited

abbrev Doc := List Token

/-- Look up the head token of `t` in the document (spaCy's `token.head`).
Out-of-range indices never occur in a real parse; `getD` returns the default
token there so the function stays total. -/
def headOf (doc : Doc) (t : Token) : Token :=
  doc.getD t.head default

/-- Embedding of `extract_terms.is_verb`:
`token.pos_ == "VERB" and token.dep_ not in {"aux", "auxpass", "neg"}`. -/
def is_verb (token : Token) : Bool :=
  if token.pos_ == "VERB" && !((["aux", "auxpass", "neg"] : List String).contains token.dep_) then
    true
  else
    false

/-- Embedding of `extract_terms.is_object`:
`token.pos_ == "NOUN" and token.dep_ == "dobj"`. -/
def is_object (token : Token) : Bool :=
  if token.pos_ == "NOUN" && token.dep_ == "dobj" then
    true
  else
    false

/-- Embedding of `extract_terms.get_verbs` on the `return_lemma=False` path
used by the decoder: `[token for token in spacy_doc if is_verb(token)]`. -/
def get_verbs (spacy_doc : Doc) : List Token :=
  spacy_doc.filter is_verb

/-- A spaCy `Span` produced by slicing a doc: start index and end index
(exclusive), both already normalized. -/
structure Span where
  start : Nat
  stop : Nat
deriving Repr, DecidableEq, Inhabited

/-- spaCy slice-bound normalization (`spacy.util.normalize_slice`) for
non-negative bounds: clamp `start` into `[0, length]`, then clamp `stop`
into `[start, length]`. -/
def normalizeSlice (start stop length : Nat) : Nat × Nat :=
  let s := min length start
  let e := min length (max s stop)
  (s, e)

/-- The span `doc[a : b]`. -/
def docSlice (doc : Doc) (a b : Nat) : Span :=
  let p := normalizeSlice a b doc.length
  ⟨p.1, p.2⟩

/-- The text covered by a span: the covered tokens' texts joined by spaces. -/
def spanText (doc : Doc) (sp : Span) : String :=
  String.intercalate " " (((doc.drop sp.start).take (sp.stop - sp.start)).map Token.text)

/-- The span built for a qualifying direct object `t` in
`match_dependent_ableist_verbs`: `doc[token.head.i : token.right_edge.i + 1]`. -/
def mkMatchSpan (doc : Doc) (t : Token) : Span :=
  docSlice doc t.head (t.right_edge + 1)

/-- The `for token in doc` loop of `decoder.match_dependent_ableist_verbs`,
recursing over the not-yet-visited suffix of the document.  The two nested
`if`s mirror the Python source; appending to `matched_phrases` becomes
prepending in front of the recursive call. -/
def matchLoop (doc : Doc) (verbs objs : List String) : List Token → List Span
  | [] => []
  | token :: rest =>
    if token.dep_ == "dobj" && objs.contains token.lemma_ then
      if is_verb (headOf doc token) && verbs.contains (headOf doc token).lemma_ then
        mkMatchSpan doc token :: matchLoop doc verbs objs rest
      else
        matchLoop doc verbs objs rest
    else
      matchLoop doc verbs objs rest

/-- Embedding of `decoder.match_dependent_ableist_verbs(doc,
ableist_verbs_object_dependent, ableist_objects)`. -/
def match_dependent_ableist_verbs (doc : Doc) (verbs objs : List String) : List Span :=
  matchLoop doc verbs objs doc

/-- The heterogeneous `[token.head, [child for child in token.children], token]`
triple appended by `extract_terms.get_verb_phrases`. -/
structure VerbPhrase where
  head : Token
  children : List Token
  obj : Token
deriving Repr, DecidableEq

/-- spaCy `token.children` for the token at index `i`: the tokens whose head
index is `i`, other than the token itself (the root is its own head but never
its own child), in sentence order. -/
def childrenOf (doc : Doc) (i : Nat) : List Token :=
  (doc.enum.filter fun p => p.1 != i && p.2.head == i).map Prod.snd

/-- Embedding of `extract_terms.get_verb_phrases`: one phrase triple per token
with dependency label `dobj`, in sentence order, with no lexicon filtering. -/
def get_verb_phrases (spacy_doc : Doc) : List VerbPhrase :=
  (spacy_doc.enum.filter fun p => p.2.dep_ == "dobj").map
    fun p => ⟨headOf spacy_doc p.2, childrenOf spacy_doc p.1, p.2⟩

/-- Embedding of `decoder.find_ableist_terms`, parameterized by the (externally
loaded) `ABLEIST_VERBS` lexicon and taking the already parsed document.  The
verb-phrase extraction is computed (the Python prints it) but its result is not
part of the returned value. -/
def find_ableist_terms (doc : Doc) (ableist_verbs : List String) : List Token :=
  let jd_verbs := get_verbs doc
  let matched_verbs := jd_verbs.filter fun verb => ableist_verbs.contains verb.lemma_
  let _jd_verb_phrases := get_verb_phrases doc
  matched_verbs

/-! Concrete documents, transcribed from en_core_web_sm dependency parses. -/

/-- The parse of "must be able to move your hands repeatedly" (the literal
sentence of `tests/test_decoder.py`): "hands" is the direct object of "move",
"your" is its possessive determiner, and "repeatedly" attaches to "move", so
the right edge of "hands" is "hands" itself (index 6). -/
def testDoc : Doc :=
  [⟨"must", "must", "AUX", "aux", 1, 0⟩,
   ⟨"be", "be", "AUX", "ROOT", 1, 7⟩,
   ⟨"able", "able", "ADJ", "acomp", 1, 7⟩,
   ⟨"to", "to", "PART", "aux", 4, 3⟩,
   ⟨"move", "move", "VERB", "xcomp", 2, 7⟩,
   ⟨"your", "your", "PRON", "poss", 6, 5⟩,
   ⟨"hands", "hand", "NOUN", "dobj", 4, 6⟩,
   ⟨"repeatedly", "repeatedly", "ADV", "advmod", 4, 7⟩]

/-- The parse of "What did you move": the fronted "What" is the direct object
of "move" and precedes it, so the object's right edge (index 0) lies to the
left of the head verb (index 3). -/
def whDoc : Doc :=
  [⟨"What", "what", "PRON", "dobj", 3, 0⟩,
   ⟨"did", "do", "AUX", "aux", 3, 1⟩,
   ⟨"you", "you", "PRON", "nsubj", 3, 2⟩,
   ⟨"move", "move", "VERB", "ROOT", 3, 3⟩]

/-- The parse of "grasp tools and lift boxes": two coordinated clauses, each
with its own verb and direct object. -/
def twoClauseDoc : Doc :=
  [⟨"grasp", "grasp", "VERB", "ROOT", 0, 4⟩,
   ⟨"tools", "tool", "NOUN", "dobj", 0, 1⟩,
   ⟨"and", "and", "CCONJ", "cc", 0, 2⟩,
   ⟨"lift", "lift", "VERB", "conj", 0, 4⟩,
   ⟨"boxes", "box", "NOUN", "dobj", 3, 4⟩]

/-- A one-token document with no verb. -/
def noVerbDoc : Doc :=
  [⟨"hello", "hello", "INTJ", "ROOT", 0, 0⟩]

/-- The parse of "lift them": the direct object is a pronoun, not a noun. -/
def pronDoc : Doc :=
  [⟨"lift", "lift", "VERB", "ROOT", 0, 1⟩,
   ⟨"them", "they", "PRON", "dobj", 0, 1⟩]

/-! Helper lemmas. -/

/-- `is_verb` without the redundant `if`: the verb has POS tag `VERB` and a
dependency label outside the auxiliary/auxiliary-passive/negation set. -/
theorem is_verb_eq (t : Token) :
    is_verb t = (t.pos_ == "VERB"
      && !((["aux", "auxpass", "neg"] : List String).contains t.dep_)) := by
  unfold is_verb
  cases h : (t.pos_ == "VERB"
      && !((["aux", "auxpass", "neg"] : List String).contains t.dep_)) <;> rfl

/-- Filtering an enumerated list on a property of the elements and dropping the
indices again is just filtering the list. -/
theorem filter_enumFrom_map_snd {α : Type} (q : α → Bool) (l : List α) :
    ∀ n : Nat, ((l.enumFrom n).filter fun p => q p.2).map Prod.snd = l.filter q := by
  induction l with
  | nil => intro n; rfl
  | cons a l ih =>
    intro n
    rw [List.enumFrom_cons, List.filter_cons, List.filter_cons]
    cases h : q a
    · simpa using ih (n + 1)
    · simpa using ih (n + 1)

theorem filter_enum_map_snd {α : Type} (q : α → Bool) (l : List α) :
    (l.enum.filter fun p => q p.2).map Prod.snd = l.filter q :=
  filter_enumFrom_map_snd q l 0

/-- The positions surviving any filter of an enumerated list are strictly
increasing. -/
theorem pairwise_lt_filter_enum_fst {α : Type} (q : Nat × α → Bool) (l : List α) :
    List.Pairwise (· < ·) ((l.enum.filter q).map Prod.fst) := by
  have hsub : List.Sublist ((l.enum.filter q).map Prod.fst) (l.enum.map Prod.fst) :=
    (List.filter_sublist _).map Prod.fst
  rw [List.enum_map_fst] at hsub
  exact List.Pairwise.sublist hsub (List.pairwise_lt_range _)

/-- The dependent-matcher loop is the filter of the visited tokens by the three
join conditions, mapped to their spans. -/
theorem matchLoop_eq_filter_map (doc : Doc) (verbs objs : List String) (l : List Token) :
    matchLoop doc verbs objs l
      = (l.filter fun t => (t.dep_ == "dobj" && objs.contains t.lemma_)
          && (is_verb (headOf doc t) && verbs.contains (headOf doc t).lemma_)).map
        (mkMatchSpan doc) := by
  induction l with
  | nil => rfl
  | cons t rest ih =>
    simp only [matchLoop, List.filter_cons]
    cases h1 : (t.dep_ == "dobj" && objs.contains t.lemma_)
    · simp [h1, ih]
    · cases h2 : (is_verb (headOf doc t) && verbs.contains (headOf doc t).lemma_)
      · simp [h1, h2, ih]
      · simp [h1, h2, ih]

/-- `match_dependent_ableist_verbs` as a filter-and-map over the document. -/
theorem match_dependent_eq_filter_map (doc : Doc) (verbs objs : List String) :
    match_dependent_ableist_verbs doc verbs objs
      = (doc.filter fun t => (t.dep_ == "dobj" && objs.contains t.lemma_)
          && (is_verb (headOf doc t) && verbs.contains (headOf doc t).lemma_)).map
        (mkMatchSpan doc) :=
  matchLoop_eq_filter_map doc verbs objs doc

/-- `find_ableist_terms` returns exactly the non-auxiliary verbs whose lemma is
in the lexicon, in sentence order. -/
theorem find_ableist_terms_eq_filter (doc : Doc) (verbs : List String) :
    find_ableist_terms doc verbs = doc.filter fun t => is_verb t && verbs.contains t.lemma_ := by
  have h : find_ableist_terms doc verbs
      = (doc.filter is_verb).filter fun verb => verbs.contains verb.lemma_ := rfl
  rw [h, List.filter_filter]
  exact List.filter_congr fun t _ => by rw [Bool.and_comm]

/-! Claim theorems. -/

/-- Claim C1, counterexample: on the parsed sentence "must be able to move your
hands repeatedly" with verb lexicon {"move"}, the standalone matcher yields one
token, the verb-phrase side (whether read as `get_verb_phrases` or as
`match_dependent_ableist_verbs`) yields one phrase, yet `find_ableist_terms`
returns a single item — so its result cannot be the concatenation of both
matchers' results (which would have two items, one of each kind). -/
theorem C1_counterexample :
    (find_ableist_terms testDoc ["move"]).length = 1
  ∧ ((get_verbs testDoc).filter fun t => (["move"] : List String).contains t.lemma_).length = 1
  ∧ (match_dependent_ableist_verbs testDoc ["move"] ["hand", "foot"]).length = 1
  ∧ (get_verb_phrases testDoc).length = 1
  ∧ (find_ableist_terms testDoc ["move"]).length
      ≠ ((get_verbs testDoc).filter fun t => (["move"] : List String).contains t.lemma_).length
        + (match_dependent_ableist_verbs testDoc ["move"] ["hand", "foot"]).length := by
  refine ⟨by decide, by decide, by decide, by decide, by decide⟩

/-- Claim C1, amended: `find_ableist_terms` runs the standalone-verb matching
and the verb-phrase extraction over the same parsed document, but its returned
value consists of the standalone-verb matches only — exactly the tokens passing
the is-verb predicate whose lemma is in the ableist-verbs lexicon, in sentence
order; the phrase results are computed (and printed) but not returned. -/
theorem C1_returns_only_standalone_matches (doc : Doc) (verbs : List String) :
    find_ableist_terms doc verbs = doc.filter fun t => is_verb t && verbs.contains t.lemma_ :=
  find_ableist_terms_eq_filter doc verbs

/-- Claim C2, counterexample: in the parsed sentence "What did you move", the
fronted direct object "What" (index 0, right edge 0) qualifies against the
lexicon {"move"} / {"what"}, but the emitted span is the slice-normalized
`⟨3, 3⟩`, not `⟨head index, right edge + 1⟩ = ⟨3, 1⟩` — the claimed exclusive
end `obj.right_edge + 1` does not hold when the head verb lies to the right of
the object's right edge. -/
theorem C2_counterexample :
    match_dependent_ableist_verbs whDoc ["move"] ["what"] = [Span.mk 3 3]
  ∧ Span.mk 3 3
      ≠ Span.mk (whDoc.getD 0 default).head ((whDoc.getD 0 default).right_edge + 1) := by
  refine ⟨by decide, by decide⟩

/-- Claim C2, amended: for every qualifying direct object `t` (dependency label
"dobj", lemma in the object set, head passing the is-verb predicate with lemma
in the verb set) whose head verb index does not exceed `t`'s right-edge index
and whose right edge is within the sentence, the dependent matcher emits the
span starting at the head verb's token index and ending (exclusively) at `t`'s
rightmost-descendant index + 1 — the object's right edge, not the verb's; in
the degenerate reversed case the end is clamped by slice normalization. -/
theorem C2_amended_span_boundaries (doc : Doc) (verbs objs : List String) (t : Token)
    (ht : t ∈ doc) (h1 : t.dep_ = "dobj") (h2 : objs.contains t.lemma_ = true)
    (h3 : is_verb (headOf doc t) = true) (h4 : verbs.contains (headOf doc t).lemma_ = true)
    (hv : t.head ≤ t.right_edge) (hb : t.right_edge < doc.length) :
    Span.mk t.head (t.right_edge + 1) ∈ match_dependent_ableist_verbs doc verbs objs := by
  rw [match_dependent_eq_filter_map]
  have hmem : t ∈ doc.filter fun t => (t.dep_ == "dobj" && objs.contains t.lemma_)
      && (is_verb (headOf doc t) && verbs.contains (headOf doc t).lemma_) := by
    rw [List.mem_filter]
    refine ⟨ht, ?_⟩
    simp only [Bool.and_eq_true, beq_iff_eq]
    exact ⟨⟨h1, h2⟩, h3, h4⟩
  have hspan : mkMatchSpan doc t = Span.mk t.head (t.right_edge + 1) := by
    simp only [mkMatchSpan, docSlice, normalizeSlice, Span.mk.injEq]
    omega
  rw [← hspan]
  exact List.mem_map_of_mem _ hmem

/-- Claim C2, witness: in the test sentence, the qualifying object "hands"
(index 6, head 4, right edge 6) produces exactly the span from the verb "move"
(index 4) to index 7 exclusive. -/
theorem C2_witness :
    Span.mk 4 7 ∈ match_dependent_ableist_verbs testDoc ["move"] ["hand", "foot"] :=
  C2_amended_span_boundaries testDoc ["move"] ["hand", "foot"] (testDoc.getD 6 default)
    (by decide) (by decide) (by decide) (by decide) (by decide) (by decide) (by decide)

/-- Claim C3: the dependent matcher emits one span per token satisfying exactly
the three join conditions — dependency label "dobj" with lemma in the object
set, head passing the is-verb predicate, head lemma in the verb set — and
nothing else; in particular, if every direct-object token with a lemma in the
object set has a head whose lemma is outside the verb set, the matcher emits
no phrase at all. -/
theorem C3_join_conditions (doc : Doc) (verbs objs : List String) :
    (match_dependent_ableist_verbs doc verbs objs
        = (doc.filter fun t => (t.dep_ == "dobj" && objs.contains t.lemma_)
            && (is_verb (headOf doc t) && verbs.contains (headOf doc t).lemma_)).map
          (mkMatchSpan doc))
  ∧ ((∀ t ∈ doc, t.dep_ = "dobj" → objs.contains t.lemma_ = true →
        verbs.contains (headOf doc t).lemma_ = false) →
      match_dependent_ableist_verbs doc verbs objs = []) := by
  refine ⟨match_dependent_eq_filter_map doc verbs objs, fun h => ?_⟩
  rw [match_dependent_eq_filter_map]
  have hnil : (doc.filter fun t => (t.dep_ == "dobj" && objs.contains t.lemma_)
      && (is_verb (headOf doc t) && verbs.contains (headOf doc t).lemma_)) = [] := by
    rw [List.filter_eq_nil_iff]
    intro t ht hq
    simp only [Bool.and_eq_true, beq_iff_eq] at hq
    obtain ⟨⟨hd, ho⟩, -, hvl⟩ := hq
    rw [h t ht hd ho] at hvl
    exact Bool.false_ne_true hvl
  rw [hnil]
  rfl

/-- Claim C3, witness: in "grasp tools and lift boxes" with verb set {"push"},
both direct objects have lemmas in the object set but their head verbs' lemmas
are outside the verb set, so no phrase is produced. -/
theorem C3_witness :
    match_dependent_ableist_verbs twoClauseDoc ["push"] ["tool", "box"] = [] :=
  (C3_join_conditions twoClauseDoc ["push"] ["tool", "box"]).2 (by decide)

/-- Claim C4: the standalone matcher returns exactly the tokens with POS tag
`VERB`, dependency label outside {aux, auxpass, neg} (tested on the token's own
label) and lemma in the ableist-verbs set; equivalently, the tokens surviving
that filter on the enumerated document, whose positions are strictly increasing
(sentence order); and no returned token has dependency label "aux". -/
theorem C4_standalone_matcher_characterization (doc : Doc) (verbs : List String) :
    (find_ableist_terms doc verbs
        = doc.filter fun t => (t.pos_ == "VERB"
            && !((["aux", "auxpass", "neg"] : List String).contains t.dep_))
            && verbs.contains t.lemma_)
  ∧ (find_ableist_terms doc verbs
        = (doc.enum.filter fun p => (p.2.pos_ == "VERB"
            && !((["aux", "auxpass", "neg"] : List String).contains p.2.dep_))
            && verbs.contains p.2.lemma_).map Prod.snd)
  ∧ List.Pairwise (· < ·)
      ((doc.enum.filter fun p => (p.2.pos_ == "VERB"
          && !((["aux", "auxpass", "neg"] : List String).contains p.2.dep_))
          && verbs.contains p.2.lemma_).map Prod.fst)
  ∧ ((find_ableist_terms doc verbs).all fun t => !(t.dep_ == "aux")) = true := by
  have h0 : find_ableist_terms doc verbs
      = doc.filter fun t => (t.pos_ == "VERB"
          && !((["aux", "auxpass", "neg"] : List String).contains t.dep_))
          && verbs.contains t.lemma_ := by
    rw [find_ableist_terms_eq_filter]
    exact List.filter_congr fun t _ => by rw [is_verb_eq]
  refine ⟨h0, ?_, pairwise_lt_filter_enum_fst _ doc, ?_⟩
  · rw [h0]
    exact (filter_enum_map_snd
      (fun t => (t.pos_ == "VERB"
        && !((["aux", "auxpass", "neg"] : List String).contains t.dep_))
        && verbs.contains t.lemma_) doc).symm
  · rw [List.all_eq_true]
    intro t ht
    rw [h0, List.mem_filter] at ht
    obtain ⟨-, hp⟩ := ht
    simp only [Bool.and_eq_true, Bool.not_eq_true'] at hp
    obtain ⟨⟨-, hcon⟩, -⟩ := hp
    rw [Bool.not_eq_true', beq_eq_false_iff_ne]
    intro he
    rw [he] at hcon
    exact absurd hcon (by decide)

/-- Claim C5, counterexample: in the parsed sentence "What did you move" with
lexicon {"move"} / {"what"}, the matcher emits the empty span `⟨3, 3⟩`, so not
every emitted span satisfies `start < end`. -/
theorem C5_counterexample :
    ∃ sp ∈ match_dependent_ableist_verbs whDoc ["move"] ["what"], ¬ sp.start < sp.stop :=
  ⟨Span.mk 3 3, by decide, by decide⟩

/-- Claim C5, amended: every span emitted by the dependent matcher satisfies
`start ≤ end` and `end ≤` the number of tokens of the sentence (the degenerate
`start = end` arises only through slice normalization when the head verb lies
to the right of the object's right edge). -/
theorem C5_amended_span_bounds (doc : Doc) (verbs objs : List String) (sp : Span)
    (h : sp ∈ match_dependent_ableist_verbs doc verbs objs) :
    sp.start ≤ sp.stop ∧ sp.stop ≤ doc.length := by
  rw [match_dependent_eq_filter_map] at h
  obtain ⟨t, -, rfl⟩ := List.mem_map.mp h
  simp only [mkMatchSpan, docSlice, normalizeSlice]
  constructor
  · omega
  · omega

/-- Claim C5, witness: the first span emitted on "grasp tools and lift boxes"
satisfies the amended bounds. -/
theorem C5_witness :
    (Span.mk 0 2).start ≤ (Span.mk 0 2).stop ∧ (Span.mk 0 2).stop ≤ twoClauseDoc.length :=
  C5_amended_span_bounds twoClauseDoc ["grasp", "lift"] ["tool", "box"] (Span.mk 0 2) (by decide)

/-- Claim C6: the dependent matcher emits exactly one span per qualifying
direct-object token, in the order the objects are encountered in a single
left-to-right pass (the surviving positions of the enumerated document are
strictly increasing), with no merging or deduplication; and the two-clause
sentence "grasp tools and lift boxes" yields two distinct, non-overlapping
spans in left-to-right object order. -/
theorem C6_one_span_per_object_in_order (doc : Doc) (verbs objs : List String) :
    (match_dependent_ableist_verbs doc verbs objs
        = ((doc.enum.filter fun p => (p.2.dep_ == "dobj" && objs.contains p.2.lemma_)
              && (is_verb (headOf doc p.2) && verbs.contains (headOf doc p.2).lemma_)).map
            fun p => mkMatchSpan doc p.2))
  ∧ List.Pairwise (· < ·)
      ((doc.enum.filter fun p => (p.2.dep_ == "dobj" && objs.contains p.2.lemma_)
          && (is_verb (headOf doc p.2) && verbs.contains (headOf doc p.2).lemma_)).map Prod.fst)
  ∧ (∃ s1 s2, match_dependent_ableist_verbs twoClauseDoc ["grasp", "lift"] ["tool", "box"]
        = [s1, s2] ∧ s1 ≠ s2 ∧ s1.stop ≤ s2.start) := by
  refine ⟨?_, pairwise_lt_filter_enum_fst _ doc,
    Span.mk 0 2, Span.mk 3 5, by decide, by decide, by decide⟩
  rw [match_dependent_eq_filter_map,
    ← filter_enum_map_snd
      (fun t => (t.dep_ == "dobj" && objs.contains t.lemma_)
        && (is_verb (headOf doc t) && verbs.contains (headOf doc t).lemma_)) doc,
    List.map_map]
  rfl

/-- Claim C7: an empty sentence produces no match from either matcher (and no
error), and a sentence without any token tagged `VERB` makes the standalone
matcher return the empty sequence. -/
theorem C7_empty_and_verbless_inputs (verbs objs : List String) (doc : Doc)
    (h : ∀ t ∈ doc, t.pos_ ≠ "VERB") :
    match_dependent_ableist_verbs [] verbs objs = []
  ∧ find_ableist_terms [] verbs = []
  ∧ get_verbs doc = []
  ∧ find_ableist_terms doc verbs = [] := by
  have hg : get_verbs doc = [] := by
    rw [get_verbs, List.filter_eq_nil_iff]
    intro t ht
    rw [is_verb_eq]
    simp [h t ht]
  refine ⟨rfl, rfl, hg, ?_⟩
  rw [find_ableist_terms_eq_filter, List.filter_eq_nil_iff]
  intro t ht
  rw [is_verb_eq]
  simp [h t ht]

/-- Claim C7, witness: the empty document and the verbless one-token document
"hello" produce empty results. -/
theorem C7_witness :
    match_dependent_ableist_verbs [] ["move"] ["hand"] = []
  ∧ find_ableist_terms [] ["move"] = []
  ∧ get_verbs noVerbDoc = []
  ∧ find_ableist_terms noVerbDoc ["move"] = [] :=
  C7_empty_and_verbless_inputs ["move"] ["hand"] noVerbDoc (by decide)

/-- Claim C8: matching is a pure function of the parsed sentence and the
lexicon — equal inputs give identical, order-stable outputs on repeated runs
(the embedding is side-effect-free by construction; the only effect in the
source, a debug print, does not enter the returned value). -/
theorem C8_matching_deterministic (doc1 doc2 : Doc) (verbs1 verbs2 objs1 objs2 : List String)
    (hdoc : doc1 = doc2) (hverbs : verbs1 = verbs2) (hobjs : objs1 = objs2) :
    match_dependent_ableist_verbs doc1 verbs1 objs1
        = match_dependent_ableist_verbs doc2 verbs2 objs2
  ∧ find_ableist_terms doc1 verbs1 = find_ableist_terms doc2 verbs2 := by
  subst hdoc; subst hverbs; subst hobjs
  exact ⟨rfl, rfl⟩

/-- Claim C8, witness: two runs on the test sentence with the same lexicon
agree. -/
theorem C8_witness :
    match_dependent_ableist_verbs testDoc ["move"] ["hand", "foot"]
        = match_dependent_ableist_verbs testDoc ["move"] ["hand", "foot"]
  ∧ find_ableist_terms testDoc ["move"] = find_ableist_terms testDoc ["move"] :=
  C8_matching_deterministic testDoc testDoc ["move"] ["move"] ["hand", "foot"] ["hand", "foot"]
    rfl rfl rfl

/-- Claim C9: on the parsed test sentence "must be able to move your hands
repeatedly" with dependent-verb set {"move"} and dependent-object set
{"hand", "foot"}, the dependent matcher returns exactly one phrase, the span
from token 4 to token 7 exclusive, whose covered text is "move your hands"
(three tokens) — "repeatedly" excluded, since it depends on "move". -/
theorem C9_literal_test_sentence :
    match_dependent_ableist_verbs testDoc ["move"] ["hand", "foot"] = [Span.mk 4 7]
  ∧ spanText testDoc (Span.mk 4 7) = "move your hands"
  ∧ (Span.mk 4 7).stop - (Span.mk 4 7).start = 3 := by
  refine ⟨by decide, by rfl, by decide⟩

/-- Claim C10: the dependent matcher puts no part-of-speech constraint on the
object token — any token with dependency label "dobj" and lemma in the object
set anchors a match whenever the head-verb conditions hold, with no hypothesis
on the token's POS tag; the NOUN-checking `is_object` predicate is never
consulted. -/
theorem C10_no_pos_constraint_on_object (doc : Doc) (verbs objs : List String) (t : Token)
    (ht : t ∈ doc) (h1 : t.dep_ = "dobj") (h2 : objs.contains t.lemma_ = true)
    (h3 : is_verb (headOf doc t) = true) (h4 : verbs.contains (headOf doc t).lemma_ = true) :
    mkMatchSpan doc t ∈ match_dependent_ableist_verbs doc verbs objs := by
  rw [match_dependent_eq_filter_map]
  refine List.mem_map_of_mem _ ?_
  rw [List.mem_filter]
  refine ⟨ht, ?_⟩
  simp only [Bool.and_eq_true, beq_iff_eq]
  exact ⟨⟨h1, h2⟩, h3, h4⟩

/-- Claim C10, witness: in "lift them" the pronoun object "them" fails the
NOUN-checking `is_object` predicate yet still anchors the emitted span. -/
theorem C10_witness :
    is_object (pronDoc.getD 1 default) = false
  ∧ Span.mk 0 2 ∈ match_dependent_ableist_verbs pronDoc ["lift"] ["they"] :=
  ⟨by decide,
   C10_no_pos_constraint_on_object pronDoc ["lift"] ["they"] (pronDoc.getD 1 default)
     (by decide) (by decide) (by decide) (by decide) (by decide)⟩

end Ableist
